import Mathlib

/-!
Verification of the tiled super-resolution pipeline in `upscale/main.py`.

The development shallowly embeds the pure computational core of the script:
the grid partitioner, the compositor's coordinate arithmetic, the transform
dispatcher, the orchestrator's tiling decision, and the `ProgressTracker`
class.  Rasters are modeled by their dimensions: no branch of the embedded
code inspects pixel values, so pixel contents are irrelevant to every
property proved here.  Python's wall-clock reads (`time.time()`) are passed
in as explicit rational parameters, and code that can raise is embedded
with `Except`/`Option` results.
-/

namespace Upscale

/-- A raster (`numpy` image array), modeled by its dimensions.
`image.shape[:2]` is `(height, width)`. -/
structure Raster where
  height : ℕ
  width : ℕ
deriving DecidableEq

/-- Source-coordinate bounds of one tile, as appended to `tile_positions`
in `upscale_image`: the tuple `(x_start, y_start, x_end, y_end)`. -/
structure TileDescriptor where
  x_start : ℕ
  y_start : ℕ
  x_end : ℕ
  y_end : ℕ
deriving DecidableEq

/-- `overlap = 16  # Overlap pixels to avoid seam artifacts`. -/
def overlap : ℕ := 16

/-- `max(1, (dim + tile_size - 1) // tile_size)`, the per-axis tile count
(`num_tiles_x` / `num_tiles_y`). -/
def numTiles (dim ts : ℕ) : ℕ :=
  max 1 ((dim + ts - 1) / ts)

/-- Tile bounds for grid index `(tx, ty)`, from the loop body:
`x_start = max(0, x * tile_size - overlap)` etc.  Subtraction on `ℕ`
truncates at zero exactly as `max(0, ...)` does on Python ints. -/
def tileDescriptor (ts w h tx ty : ℕ) : TileDescriptor where
  x_start := max 0 (tx * ts - overlap)
  y_start := max 0 (ty * ts - overlap)
  x_end := min w ((tx + 1) * ts + overlap)
  y_end := min h ((ty + 1) * ts + overlap)

/-- The `tile_positions` list: `for y in range(num_tiles_y): for x in
range(num_tiles_x): ...` — row-major, `ty` outer, `tx` inner. -/
def partitionTiles (w h ts : ℕ) : List TileDescriptor :=
  (List.range (numTiles h ts)).flatMap fun ty =>
    (List.range (numTiles w ts)).map fun tx => tileDescriptor ts w h tx ty

/-- `tile = image[y_start:y_end, x_start:x_end]`: numpy basic slicing clamps
both slice endpoints to the array extent. -/
def extractTile (img : Raster) (d : TileDescriptor) : Raster where
  height := min img.height d.y_end - min img.height d.y_start
  width := min img.width d.x_end - min img.width d.x_start

/-- A half-open rectangle `[x0, x1) × [y0, y1)` of canvas pixels. -/
structure Region where
  x0 : ℕ
  y0 : ℕ
  x1 : ℕ
  y1 : ℕ
deriving DecidableEq

/-- One iteration of the combine loop for a `(descriptor, result-tile)` pair:
computes the scaled output coordinates, the cropped portion
`tile[0:min(th, oye-oys), 0:min(tw, oxe-oxs)]`, and the destination window
`upscaled[oys:oys+ph, oxs:oxs+pw]`.  Returns the written region, or `none`
when the assignment would not fit the canvas (the `except ValueError`
branch, which logs and skips the tile). -/
def compositeWrite (ow oh s : ℕ) (d : TileDescriptor) (tileH tileW : ℕ) : Option Region :=
  let oxs := max 0 (d.x_start * s)
  let oys := max 0 (d.y_start * s)
  let oxe := min ow (d.x_end * s)
  let oye := min oh (d.y_end * s)
  let ph := min tileH (oye - oys)
  let pw := min tileW (oxe - oxs)
  if oys + ph ≤ oh ∧ oxs + pw ≤ ow then
    some ⟨oxs, oys, oxs + pw, oys + ph⟩
  else
    none

/-- Pixel membership in a written region. -/
def writesTo (r : Region) (px py : ℕ) : Bool :=
  decide (r.x0 ≤ px) && decide (px < r.x1) && decide (r.y0 ≤ py) && decide (py < r.y1)

/-- Whether the combine-loop iteration for descriptor `d` writes canvas pixel
`(px, py)`, assuming the transform returned a tile of exactly
`scale ×` the descriptor's dimensions (the EDSR contract). -/
def tileWrites (w h s : ℕ) (d : TileDescriptor) (px py : ℕ) : Bool :=
  match compositeWrite (w * s) (h * s) s d ((d.y_end - d.y_start) * s) ((d.x_end - d.x_start) * s) with
  | some r => writesTo r px py
  | none => false

/-- How many tiles of the run write canvas pixel `(px, py)`. -/
def writeCount (w h ts s px py : ℕ) : ℕ :=
  ((partitionTiles w h ts).filter fun d => tileWrites w h s d px py).length

/-- `process_tile`: applies the super-resolution transform to one tile (its
tracker update is a side effect on the progress meter only). -/
def processTile (sr : Raster → Raster) (tile : Raster) : Raster :=
  sr tile

/-- The dispatcher `list(executor.map(process_tile, ...))`: results are
collected in input order regardless of the workers' execution order. -/
def dispatchTiles (sr : Raster → Raster) (tiles : List Raster) : List Raster :=
  tiles.map (processTile sr)

/-- The dispatcher with a fallible transform: `executor.map` re-raises the
exception of the earliest failing tile when its slot is reached, so the
whole collection fails with the first error in tile order. -/
def dispatchTilesE (sr : Raster → Except String Raster) (tiles : List Raster) :
    Except String (List Raster) :=
  tiles.mapM sr

/-- The tiled branch of `upscale_image` with a fallible transform: partition,
dispatch, then composite.  A transform exception propagates out of the
`with ThreadPoolExecutor` block to the outer `except`, which prints
`"Error during upscaling: {e}"` and exits — so on failure the only surfaced
value is the transform's own error and no canvas is produced.  On success
the value is the list of per-tile composite outcomes. -/
def tiledUpscaleE (sr : Raster → Except String Raster) (img : Raster) (ts s : ℕ) :
    Except String (List (Option Region)) :=
  let descs := partitionTiles img.width img.height ts
  match dispatchTilesE sr (descs.map (extractTile img)) with
  | Except.error e => Except.error e
  | Except.ok results =>
      Except.ok ((descs.zip results).map fun dr =>
        compositeWrite (img.width * s) (img.height * s) s dr.1 dr.2.height dr.2.width)

/-- The tiling decision on line 257:
`tile_size > 0 and (width > tile_size or height > tile_size) and width * height > 1000000`. -/
def useTiling (w h ts : ℕ) : Bool :=
  decide (0 < ts ∧ (ts < w ∨ ts < h) ∧ 1000000 < w * h)

/-- The rasters the orchestrator hands to the transform: the extracted tiles
on the tiled path, or the whole image on the single-shot path
(`upscaled = sr.upsample(image)`). -/
def transformInputs (img : Raster) (ts : ℕ) : List Raster :=
  if useTiling img.width img.height ts then
    (partitionTiles img.width img.height ts).map (extractTile img)
  else
    [img]

/-- The fatal error raised at the top of `upscale_image`:
`ValueError(f"Scale {scale} is not supported. ...")`. -/
inductive UpscaleError where
  | invalidScale (scale : ℤ)
deriving DecidableEq

/-- Observable work steps of `upscale_image`, in program order: the image
read (`cv2.imread`), the model load (`sr.readModel`), and each transform
invocation. -/
inductive Event where
  | imageRead
  | modelLoad (scale : ℤ)
  | transformOn (r : Raster)
deriving DecidableEq

/-- `supported_scales = [2, 3, 4]`. -/
def supportedScales : List ℤ := [2, 3, 4]

/-- The entry-point skeleton of `upscale_image`: the scale check happens
first, before the model is loaded, the input is read, or any transform
runs; the event trace records the work performed. -/
def upscaleImage (img : Raster) (scale : ℤ) (ts : ℕ) :
    Except UpscaleError Unit × List Event :=
  if scale ∉ supportedScales then
    (Except.error (UpscaleError.invalidScale scale), [])
  else
    (Except.ok (),
      [Event.imageRead, Event.modelLoad scale] ++ (transformInputs img ts).map Event.transformOn)

/-- The mutable state of a `ProgressTracker` instance.  `total` and
`current` are Python ints; the two times are wall-clock readings
(`time.time()` values), modeled as rationals.  `__init__` sets
`current = 0` and `last_update_time = 0`. -/
structure ProgressTracker where
  total : ℤ
  current : ℤ
  start_time : ℚ
  last_update_time : ℚ
deriving DecidableEq

/-- `self.update_interval = 0.5`. -/
def updateInterval : ℚ := 1 / 2

/-- `ProgressTracker.update(amount)`: increments `current`, then refreshes
the display only if `current_time - self.last_update_time >=
self.update_interval`, in which case `last_update_time` is set to the
current time.  The boolean reports whether a refresh was triggered. -/
def ProgressTracker.update (s : ProgressTracker) (now : ℚ) (amount : ℤ) :
    ProgressTracker × Bool :=
  let s1 : ProgressTracker := { s with current := s.current + amount }
  if updateInterval ≤ now - s1.last_update_time then
    ({ s1 with last_update_time := now }, true)
  else
    (s1, false)

/-- Python `int()` applied to a rational: truncation toward zero. -/
def ratTrunc (q : ℚ) : ℤ :=
  q.num.tdiv q.den

/-- Python's binary `min` on numbers (spelled out so that it evaluates by
kernel reduction on concrete rationals). -/
def ratMin (a b : ℚ) : ℚ :=
  if a ≤ b then a else b

/-- What one `display()` call renders: the percent figure, the ETA
(`none` renders as `"Unknown"`), and the filled length of the bar. -/
structure RenderInfo where
  percent : ℚ
  eta : Option ℚ
  filled : ℤ
deriving DecidableEq

/-- `ProgressTracker.display()`: returns early (renders nothing) when
`self.total <= 0`; otherwise renders percent, ETA and bar.  The ETA is
`elapsed * (total - current) / current` when `current > 0` and unknown
otherwise. -/
def ProgressTracker.display (s : ProgressTracker) (now : ℚ) : Option RenderInfo :=
  if s.total ≤ 0 then
    none
  else
    let percent : ℚ := ratMin 100 ((s.current : ℚ) * 100 / (s.total : ℚ))
    let elapsed : ℚ := now - s.start_time
    let eta : Option ℚ :=
      if 0 < s.current then
        some (elapsed * ((s.total : ℚ) - (s.current : ℚ)) / (s.current : ℚ))
      else
        none
    let filled : ℤ := ratTrunc (30 * (s.current : ℚ) / (s.total : ℚ))
    some ⟨percent, eta, filled⟩

/-! ### Helper lemmas about the partitioner -/

lemma numTiles_pos (dim ts : ℕ) : 1 ≤ numTiles dim ts :=
  le_max_left 1 _

lemma numTiles_eq (dim ts : ℕ) (hd : 1 ≤ dim) (hts : 0 < ts) :
    numTiles dim ts = (dim + ts - 1) / ts := by
  have h1 : 1 ≤ (dim + ts - 1) / ts := (Nat.one_le_div_iff hts).mpr (by omega)
  exact max_eq_right h1

lemma succ_div_mul_lt (a b : ℕ) (hb : 0 < b) : a < (a / b + 1) * b := by
  have h1 := Nat.div_add_mod a b
  have h2 : a % b < b := Nat.mod_lt a hb
  have h3 : (a / b + 1) * b = b * (a / b) + b := by ring
  omega

lemma numTiles_mul_ge (dim ts : ℕ) (hd : 1 ≤ dim) (hts : 0 < ts) :
    dim ≤ numTiles dim ts * ts := by
  rw [numTiles_eq dim ts hd hts]
  have h1 := succ_div_mul_lt (dim + ts - 1) ts hts
  have h2 : ((dim + ts - 1) / ts + 1) * ts = (dim + ts - 1) / ts * ts + ts := by ring
  omega

lemma numTiles_pred_mul_lt (dim ts : ℕ) (hd : 1 ≤ dim) (hts : 0 < ts) :
    (numTiles dim ts - 1) * ts < dim := by
  rw [numTiles_eq dim ts hd hts]
  have h1 : (dim + ts - 1) / ts * ts ≤ dim + ts - 1 := Nat.div_mul_le_self _ _
  have h2 : ((dim + ts - 1) / ts - 1) * ts = (dim + ts - 1) / ts * ts - 1 * ts :=
    Nat.sub_mul _ _ _
  have h3 : 1 ≤ (dim + ts - 1) / ts := (Nat.one_le_div_iff hts).mpr (by omega)
  omega

lemma axis_index_mul_lt (dim ts t : ℕ) (hd : 1 ≤ dim) (hts : 0 < ts)
    (ht : t < numTiles dim ts) : t * ts < dim := by
  have h1 : t ≤ numTiles dim ts - 1 := by omega
  have h2 : t * ts ≤ (numTiles dim ts - 1) * ts := Nat.mul_le_mul_right ts h1
  have h3 := numTiles_pred_mul_lt dim ts hd hts
  omega

lemma axis_bounds (dim ts t : ℕ) (hts : 0 < ts) (ht : t * ts < dim) :
    max 0 (t * ts - overlap) < min dim ((t + 1) * ts + overlap) ∧
    min dim ((t + 1) * ts + overlap) ≤ dim := by
  refine ⟨?_, min_le_left _ _⟩
  have h1 : max 0 (t * ts - overlap) = t * ts - overlap := max_eq_right (Nat.zero_le _)
  have h2 : (t + 1) * ts = t * ts + ts := by ring
  rw [h1]
  exact lt_min (by omega) (by omega)

lemma mem_partitionTiles {w h ts : ℕ} {d : TileDescriptor} :
    d ∈ partitionTiles w h ts ↔
      ∃ ty, ty < numTiles h ts ∧ ∃ tx, tx < numTiles w ts ∧ d = tileDescriptor ts w h tx ty := by
  simp only [partitionTiles, List.mem_flatMap, List.mem_map, List.mem_range]
  constructor
  · rintro ⟨ty, hty, tx, htx, rfl⟩
    exact ⟨ty, hty, tx, htx, rfl⟩
  · rintro ⟨ty, hty, tx, htx, rfl⟩
    exact ⟨ty, hty, tx, htx, rfl⟩

lemma partition_mem_bounds {w h ts : ℕ} (hw : 1 ≤ w) (hh : 1 ≤ h) (hts : 0 < ts)
    {d : TileDescriptor} (hd : d ∈ partitionTiles w h ts) :
    d.x_start < d.x_end ∧ d.x_end ≤ w ∧ d.y_start < d.y_end ∧ d.y_end ≤ h := by
  rcases mem_partitionTiles.mp hd with ⟨ty, hty, tx, htx, rfl⟩
  have hx := axis_bounds w ts tx hts (axis_index_mul_lt w ts tx hw hts htx)
  have hy := axis_bounds h ts ty hts (axis_index_mul_lt h ts ty hh hts hty)
  exact ⟨hx.1, hx.2, hy.1, hy.2⟩

lemma coverage_axis (dim ts p : ℕ) (hts : 0 < ts) (hp : p < dim) :
    p / ts < numTiles dim ts ∧
    max 0 (p / ts * ts - overlap) ≤ p ∧
    p < min dim ((p / ts + 1) * ts + overlap) := by
  refine ⟨?_, ?_, ?_⟩
  · have hd : 1 ≤ dim := by omega
    rw [numTiles_eq dim ts hd hts]
    have h1 : dim - 1 + ts = dim + ts - 1 := by omega
    have h2 : (dim - 1 + ts) / ts = (dim - 1) / ts + 1 := Nat.add_div_right _ hts
    rw [h1] at h2
    have h3 : p / ts ≤ (dim - 1) / ts := Nat.div_le_div_right (by omega)
    omega
  · have h1 : p / ts * ts ≤ p := Nat.div_mul_le_self p ts
    have h2 : max 0 (p / ts * ts - overlap) = p / ts * ts - overlap :=
      max_eq_right (Nat.zero_le _)
    omega
  · have h1 := succ_div_mul_lt p ts hts
    exact lt_min hp (by omega)

/-- Row-major concatenation of an `n × m` grid of entries, as produced by
the nested `for` loops. -/
def rowMajor {α : Type} (g : ℕ → ℕ → α) (n m : ℕ) : List α :=
  (List.range n).flatMap fun j => (List.range m).map (g j)

lemma partitionTiles_eq_rowMajor (w h ts : ℕ) :
    partitionTiles w h ts =
      rowMajor (fun ty tx => tileDescriptor ts w h tx ty) (numTiles h ts) (numTiles w ts) :=
  rfl

lemma rowMajor_length {α : Type} (g : ℕ → ℕ → α) (n m : ℕ) :
    (rowMajor g n m).length = n * m := by
  induction n with
  | zero => simp [rowMajor]
  | succ k ih =>
    rw [rowMajor, List.range_succ, List.flatMap_append] at *
    simp only [List.length_append] at *
    rw [ih]
    simp [Nat.succ_mul]

lemma rowMajor_getElem {α : Type} (g : ℕ → ℕ → α) (n m x y : ℕ) (hx : x < m) (hy : y < n) :
    (rowMajor g n m)[y * m + x]? = some (g y x) := by
  induction n with
  | zero => omega
  | succ k ih =>
    rw [rowMajor, List.range_succ, List.flatMap_append]
    rcases Nat.lt_or_ge y k with hlt | hge
    · rw [List.getElem?_append_left]
      · exact ih hlt
      · rw [show ((List.range k).flatMap fun j => (List.range m).map (g j)) = rowMajor g k m
            from rfl, rowMajor_length]
        have h1 : (y + 1) * m ≤ k * m := Nat.mul_le_mul_right m (by omega)
        have h2 : (y + 1) * m = y * m + m := by ring
        omega
    · have hyk : y = k := by omega
      subst hyk
      rw [List.getElem?_append_right]
      · rw [show ((List.range y).flatMap fun j => (List.range m).map (g j)) = rowMajor g y m
            from rfl, rowMajor_length]
        simp only [Nat.add_sub_cancel_left, List.flatMap_cons, List.flatMap_nil, List.append_nil]
        rw [List.getElem?_map, List.getElem?_range hx]
        rfl
      · rw [show ((List.range y).flatMap fun j => (List.range m).map (g j)) = rowMajor g y m
            from rfl, rowMajor_length]
        omega

lemma exists_error_mapM {α β : Type} (f : α → Except String β) :
    ∀ l : List α, (∃ a ∈ l, ∃ e, f a = Except.error e) →
      ∃ e, l.mapM f = Except.error e := by
  intro l
  induction l with
  | nil => rintro ⟨a, ha, -⟩; cases ha
  | cons a l ih =>
    rintro ⟨b, hb, e, he⟩
    rw [List.mapM_cons]
    rcases List.mem_cons.mp hb with rfl | hbl
    · exact ⟨e, by rw [he]; rfl⟩
    · cases hfa : f a with
      | error e2 => exact ⟨e2, rfl⟩
      | ok v =>
        rcases ih ⟨b, hbl, e, he⟩ with ⟨e2, he2⟩
        exact ⟨e2, by rw [he2]; rfl⟩

/-! ### Claim theorems -/

/-- C2: for all `width ≥ 1`, `height ≥ 1` and `tile_size > 0`, every
descriptor produced by the partitioner satisfies
`x_start < x_end ≤ width` and `y_start < y_end ≤ height` (lower bounds
`0 ≤ x_start`, `0 ≤ y_start` hold by the coordinates living in `ℕ`), and
the union of the descriptor regions is exactly `[0,width) × [0,height)`:
a point lies in the raster iff some descriptor's region contains it. -/
theorem partition_covers_raster (w h ts : ℕ) (hw : 1 ≤ w) (hh : 1 ≤ h) (hts : 0 < ts) :
    (∀ d ∈ partitionTiles w h ts,
        d.x_start < d.x_end ∧ d.x_end ≤ w ∧ d.y_start < d.y_end ∧ d.y_end ≤ h) ∧
    ∀ px py : ℕ,
      (px < w ∧ py < h) ↔
        ∃ d ∈ partitionTiles w h ts,
          d.x_start ≤ px ∧ px < d.x_end ∧ d.y_start ≤ py ∧ py < d.y_end := by
  constructor
  · intro d hd
    exact partition_mem_bounds hw hh hts hd
  · intro px py
    constructor
    · rintro ⟨hpx, hpy⟩
      have hx := coverage_axis w ts px hts hpx
      have hy := coverage_axis h ts py hts hpy
      exact ⟨tileDescriptor ts w h (px / ts) (py / ts),
        mem_partitionTiles.mpr ⟨py / ts, hy.1, px / ts, hx.1, rfl⟩,
        hx.2.1, hx.2.2, hy.2.1, hy.2.2⟩
    · rintro ⟨d, hd, h1, h2, h3, h4⟩
      have hb := partition_mem_bounds hw hh hts hd
      omega

/-- C2 witness: the coverage theorem applied to a concrete 3×2 raster with
tile size 2. -/
theorem partition_covers_raster_witness :
    (∀ d ∈ partitionTiles 3 2 2,
        d.x_start < d.x_end ∧ d.x_end ≤ 3 ∧ d.y_start < d.y_end ∧ d.y_end ≤ 2) ∧
    ∀ px py : ℕ,
      (px < 3 ∧ py < 2) ↔
        ∃ d ∈ partitionTiles 3 2 2,
          d.x_start ≤ px ∧ px < d.x_end ∧ d.y_start ≤ py ∧ py < d.y_end :=
  partition_covers_raster 3 2 2 (by decide) (by decide) (by decide)

/-- C3: with `overlap = 16` and `tile_size > 0`, the partitioner yields
exactly `num_tiles_x * num_tiles_y` descriptors, where each per-axis count
is the ceiling `⌈dim / tile_size⌉ = (dim + tile_size - 1) / tile_size ≥ 1`
(characterized by `dim ≤ n·ts` and `(n-1)·ts < dim`); the descriptor at
row-major position `ty * num_tiles_x + tx` (`ty` outer, `tx` inner) is
`(max(0, tx·ts - overlap), max(0, ty·ts - overlap),
min(width, (tx+1)·ts + overlap), min(height, (ty+1)·ts + overlap))`. -/
theorem partition_grid_formula (w h ts : ℕ) (hw : 1 ≤ w) (hh : 1 ≤ h) (hts : 0 < ts) :
    overlap = 16 ∧
    numTiles w ts = (w + ts - 1) / ts ∧
    numTiles h ts = (h + ts - 1) / ts ∧
    1 ≤ numTiles w ts ∧ 1 ≤ numTiles h ts ∧
    w ≤ numTiles w ts * ts ∧ (numTiles w ts - 1) * ts < w ∧
    h ≤ numTiles h ts * ts ∧ (numTiles h ts - 1) * ts < h ∧
    (partitionTiles w h ts).length = numTiles w ts * numTiles h ts ∧
    ∀ tx ty : ℕ, tx < numTiles w ts → ty < numTiles h ts →
      (partitionTiles w h ts)[ty * numTiles w ts + tx]? =
        some ⟨max 0 (tx * ts - overlap), max 0 (ty * ts - overlap),
              min w ((tx + 1) * ts + overlap), min h ((ty + 1) * ts + overlap)⟩ := by
  refine ⟨rfl, numTiles_eq w ts hw hts, numTiles_eq h ts hh hts,
    numTiles_pos w ts, numTiles_pos h ts,
    numTiles_mul_ge w ts hw hts, numTiles_pred_mul_lt w ts hw hts,
    numTiles_mul_ge h ts hh hts, numTiles_pred_mul_lt h ts hh hts, ?_, ?_⟩
  · rw [partitionTiles_eq_rowMajor, rowMajor_length, Nat.mul_comm]
  · intro tx ty htx hty
    rw [partitionTiles_eq_rowMajor, rowMajor_getElem _ _ _ tx ty htx hty]
    rfl

/-- C3 witness: the grid formula applied to a concrete 3×2 raster with
tile size 2. -/
theorem partition_grid_formula_witness :
    overlap = 16 ∧
    numTiles 3 2 = (3 + 2 - 1) / 2 ∧
    numTiles 2 2 = (2 + 2 - 1) / 2 ∧
    1 ≤ numTiles 3 2 ∧ 1 ≤ numTiles 2 2 ∧
    3 ≤ numTiles 3 2 * 2 ∧ (numTiles 3 2 - 1) * 2 < 3 ∧
    2 ≤ numTiles 2 2 * 2 ∧ (numTiles 2 2 - 1) * 2 < 2 ∧
    (partitionTiles 3 2 2).length = numTiles 3 2 * numTiles 2 2 ∧
    ∀ tx ty : ℕ, tx < numTiles 3 2 → ty < numTiles 2 2 →
      (partitionTiles 3 2 2)[ty * numTiles 3 2 + tx]? =
        some ⟨max 0 (tx * 2 - overlap), max 0 (ty * 2 - overlap),
              min 3 ((tx + 1) * 2 + overlap), min 2 ((ty + 1) * 2 + overlap)⟩ :=
  partition_grid_formula 3 2 2 (by decide) (by decide) (by decide)

/-- C9: whenever every transformed tile has exactly `scale ×` its
descriptor's dimensions, the crop of the combine loop fits its canvas
target exactly — `compositeWrite` always succeeds (the `ValueError`
handler is unreachable) and the region written is precisely the scaled
descriptor region. -/
theorem composite_fit_exact (w h ts s : ℕ) (hw : 1 ≤ w) (hh : 1 ≤ h) (hts : 0 < ts) :
    ∀ d ∈ partitionTiles w h ts,
      compositeWrite (w * s) (h * s) s d ((d.y_end - d.y_start) * s) ((d.x_end - d.x_start) * s) =
        some ⟨d.x_start * s, d.y_start * s, d.x_end * s, d.y_end * s⟩ := by
  intro d hd
  have hb := partition_mem_bounds hw hh hts hd
  have hxe : d.x_end * s ≤ w * s := Nat.mul_le_mul_right s hb.2.1
  have hye : d.y_end * s ≤ h * s := Nat.mul_le_mul_right s hb.2.2.2
  have hxs : d.x_start * s ≤ d.x_end * s := Nat.mul_le_mul_right s (le_of_lt hb.1)
  have hys : d.y_start * s ≤ d.y_end * s := Nat.mul_le_mul_right s (le_of_lt hb.2.2.1)
  simp only [compositeWrite, Nat.sub_mul, max_eq_right (Nat.zero_le _),
    min_eq_right hxe, min_eq_right hye, min_self,
    Nat.add_sub_cancel' hxs, Nat.add_sub_cancel' hys]
  rw [if_pos ⟨hye, hxe⟩]

/-- C9 witness: the exact-fit theorem applied to the first tile of the
3×2 partition at scale 2. -/
theorem composite_fit_exact_witness :
    compositeWrite (3 * 2) (2 * 2) 2 (tileDescriptor 2 3 2 0 0)
        (((tileDescriptor 2 3 2 0 0).y_end - (tileDescriptor 2 3 2 0 0).y_start) * 2)
        (((tileDescriptor 2 3 2 0 0).x_end - (tileDescriptor 2 3 2 0 0).x_start) * 2) =
      some ⟨(tileDescriptor 2 3 2 0 0).x_start * 2, (tileDescriptor 2 3 2 0 0).y_start * 2,
            (tileDescriptor 2 3 2 0 0).x_end * 2, (tileDescriptor 2 3 2 0 0).y_end * 2⟩ :=
  composite_fit_exact 3 2 2 2 (by decide) (by decide) (by decide)
    (tileDescriptor 2 3 2 0 0) (by decide)

/-- C1: on the spec's own 2000×1500 scenario with `tile_size = 1024` and
`scale = 2` (each transformed tile exactly `2 ×` its descriptor, no
`CompositeShapeMismatch`), canvas pixel `(x, y) = (2016, 0)` is written by
two tiles while pixel `(0, 0)` is written by one: destination-side writes
of adjacent tiles overlap, refuting write-exactly-once. -/
theorem canvas_double_write :
    writeCount 2000 1500 1024 2 2016 0 = 2 ∧ writeCount 2000 1500 1024 2 0 0 = 1 := by
  constructor <;> decide

/-- C4: tiling is used iff `tile_size > 0` and the image exceeds the tile
edge in some axis and the area exceeds 1,000,000 pixels; otherwise — in
particular whenever `width * height ≤ 1,000,000` — the transform is
invoked exactly once, on the whole raster. -/
theorem tiling_threshold_iff (img : Raster) (ts : ℕ) :
    (useTiling img.width img.height ts = true ↔
      0 < ts ∧ (ts < img.width ∨ ts < img.height) ∧ 1000000 < img.width * img.height) ∧
    (img.width * img.height ≤ 1000000 → transformInputs img ts = [img]) := by
  constructor
  · simp [useTiling]
  · intro hle
    have hf : useTiling img.width img.height ts = false := by
      simp only [useTiling, decide_eq_false_iff_not]
      rintro ⟨-, -, hgt⟩
      omega
    simp [transformInputs, hf]

/-- C4 witness: the spec's 500×400 scenario (area 200,000 ≤ 1,000,000)
goes down the single-shot path: the transform input list is exactly the
whole raster. -/
theorem tiling_threshold_iff_witness :
    transformInputs ⟨400, 500⟩ 1024 = [⟨400, 500⟩] :=
  (tiling_threshold_iff ⟨400, 500⟩ 1024).2 (by decide)

/-- C5: the dispatcher returns as many results as it received tiles, and the
`i`-th result is the transform applied to the `i`-th tile — pairing of
results with descriptors is purely positional. -/
theorem dispatch_preserves_order (sr : Raster → Raster) (tiles : List Raster) :
    (dispatchTiles sr tiles).length = tiles.length ∧
    ∀ i : ℕ, (dispatchTiles sr tiles)[i]? = tiles[i]?.map fun t => sr t := by
  constructor
  · simp [dispatchTiles]
  · intro i
    simp only [dispatchTiles, List.getElem?_map]
    rfl

/-- C6 counterexample: with a transform that raises, two runs whose failing
tiles have different descriptors produce the same surfaced failure — the
raw exception message alone — so the failure does not carry (identify) the
failing tile's descriptor.  (The first conjunct shows the two runs are
indistinguishable; the last shows their first tiles differ.) -/
theorem tile_failure_error_indistinct :
    tiledUpscaleE (fun _ => Except.error "upsample failed") ⟨4, 4⟩ 2 2 =
      tiledUpscaleE (fun _ => Except.error "upsample failed") ⟨4, 6⟩ 2 2 ∧
    tiledUpscaleE (fun _ => Except.error "upsample failed") ⟨4, 4⟩ 2 2 =
      Except.error "upsample failed" ∧
    (partitionTiles 4 4 2).head? ≠ (partitionTiles 6 4 2).head? :=
  ⟨rfl, rfl, by decide⟩

/-- C6 (amended): if any tile's transform invocation fails, the whole tiled
run fails — the result is an error (the underlying transform exception) and
no canvas is produced; no blank result is substituted for the failed
tile. -/
theorem tile_failure_aborts_run (sr : Raster → Except String Raster) (img : Raster) (ts s : ℕ)
    (hfail : ∃ d ∈ partitionTiles img.width img.height ts,
      ∃ e, sr (extractTile img d) = Except.error e) :
    ∃ e, tiledUpscaleE sr img ts s = Except.error e := by
  rcases hfail with ⟨d, hd, e, he⟩
  have hmem : ∃ t ∈ (partitionTiles img.width img.height ts).map (extractTile img),
      ∃ e, sr t = Except.error e :=
    ⟨extractTile img d, List.mem_map_of_mem _ hd, e, he⟩
  rcases exists_error_mapM sr _ hmem with ⟨e2, he2⟩
  refine ⟨e2, ?_⟩
  simp only [tiledUpscaleE, dispatchTilesE]
  rw [he2]

/-- C6 witness: a concrete failing run over the 2×2 grid of a 4×4 image. -/
theorem tile_failure_aborts_run_witness :
    ∃ e, tiledUpscaleE (fun _ => Except.error "boom") ⟨4, 4⟩ 2 2 = Except.error e :=
  tile_failure_aborts_run (fun _ => Except.error "boom") ⟨4, 4⟩ 2 2
    ⟨tileDescriptor 2 4 4 0 0, by decide, "boom", rfl⟩

/-- C7: `update(n)` adds exactly `n` to `current`; it triggers a display
refresh iff at least `0.5` seconds have elapsed since the last refresh;
and when `display` renders, the ETA is
`elapsed * (total - current) / current` for `current > 0` and unknown
(`none`) for `current = 0` (and any non-positive `current`). -/
theorem tracker_update_display (s : ProgressTracker) (now : ℚ) (n : ℤ) :
    (s.update now n).1.current = s.current + n ∧
    ((s.update now n).2 = true ↔ (1 / 2 : ℚ) ≤ now - s.last_update_time) ∧
    (0 < s.total →
      (s.display now).map RenderInfo.eta =
        some (if 0 < s.current then
            some ((now - s.start_time) * ((s.total : ℚ) - (s.current : ℚ)) / (s.current : ℚ))
          else none)) := by
  refine ⟨?_, ?_, ?_⟩
  · simp only [ProgressTracker.update]
    split <;> rfl
  · simp only [ProgressTracker.update, updateInterval]
    split <;> simp_all
  · intro htot
    unfold ProgressTracker.display
    rw [if_neg (by omega)]
    rfl

/-- C7 witness: the tracker theorem applied at the concrete state
`total = 10, current = 3, start_time = 0, last_update_time = 0` and
`now = 2`, `n = 1`. -/
theorem tracker_update_display_witness :
    (ProgressTracker.update ⟨10, 3, 0, 0⟩ 2 1).1.current = (3 : ℤ) + 1 ∧
    ((ProgressTracker.update ⟨10, 3, 0, 0⟩ 2 1).2 = true ↔ (1 / 2 : ℚ) ≤ 2 - 0) ∧
    ((ProgressTracker.display ⟨10, 3, 0, 0⟩ 2).map RenderInfo.eta =
      some (if (0 : ℤ) < 3 then
          some (((2 : ℚ) - 0) * (((10 : ℤ) : ℚ) - ((3 : ℤ) : ℚ)) / ((3 : ℤ) : ℚ))
        else none)) := by
  have h := tracker_update_display ⟨10, 3, 0, 0⟩ 2 1
  exact ⟨h.1, h.2.1, h.2.2 (by decide)⟩

/-- C8: for any scale outside `{2, 3, 4}`, `upscale_image` fails with the
invalid-scale error before any work: the event trace is empty — no image
read, no model load, no transform invocation. -/
theorem invalid_scale_no_work (img : Raster) (scale : ℤ) (ts : ℕ)
    (h : scale ∉ supportedScales) :
    upscaleImage img scale ts = (Except.error (UpscaleError.invalidScale scale), []) := by
  simp only [upscaleImage, if_pos h]

/-- C8 witness: scale 5 is rejected with an empty event trace. -/
theorem invalid_scale_no_work_witness :
    upscaleImage ⟨100, 100⟩ 5 1024 = (Except.error (UpscaleError.invalidScale 5), []) :=
  invalid_scale_no_work ⟨100, 100⟩ 5 1024 (by decide)

/-- C10: `display()` renders nothing exactly when `total ≤ 0`; every
rendered output (and hence every division by `total` in the percent and
bar computations) arises only with `total > 0`. -/
theorem display_none_iff_total_nonpos (s : ProgressTracker) (now : ℚ) :
    s.display now = none ↔ s.total ≤ 0 := by
  unfold ProgressTracker.display
  split
  · simp_all
  · simp_all

end Upscale
